import Mathlib

/-!
Shallow embedding of the comment-tag test-case extractor of
`testsheet/test_sheet.py` (class `TestSheet`) and the CLI dispatch of
`test_sheet/cli.py`, together with theorems settling the behavioural
claims about it.

The line buffer (`self.lines`) is a `List String` with 0-based indices;
AST line numbers (`node.lineno`, `node.end_lineno`) are 1-based `Nat`s,
`end_lineno` an `Option Nat` (the `hasattr` check in the source).
A Python `IndexError` on `self.lines[i]` is modelled as `Except.error ()`;
the `try/except` wrapper of each extractor maps it to the absent result,
exactly as the source's `except Exception` branch returns `None`.

Python string methods are re-implemented over `String.data` so that every
definition evaluates by kernel reduction:
  `str.strip()`          -> `pyStrip`
  `str.startswith(p)`    -> `strStartsWith`
  `str.endswith(p)`      -> `strEndsWith`
  `sub in s`             -> `strContains`
  `s.split(sep, 1)[-1]` / guarded `[1]` -> `afterFirst`
  `"\n".join(s.split("\\n"))` -> `expandEscapes`
  `sep.join(xs)`         -> `joinSep`
  `s.lstrip("#")`        -> `List.dropWhile` on the `#` character
The Python `while` loops of the forward scanners advance their index by at
least one per iteration, so they are embedded with an explicit iteration
budget of `function_end - i` which is provably never exhausted while the
loop guard holds; the backward description scan decreases its index and is
structurally recursive on it.
-/

/-- Character class of Python `str.strip()` (ASCII whitespace). -/
def isPySpace (c : Char) : Bool :=
  c = ' ' || c = '\t' || c = '\n' || c = '\r' || c = '\x0b' || c = '\x0c'

/-- Python `s.strip()`: drop leading and trailing whitespace. -/
def pyStrip (s : String) : String :=
  ⟨((s.data.dropWhile isPySpace).reverse.dropWhile isPySpace).reverse⟩

/-- Python `s.startswith(p)`. -/
def strStartsWith (s p : String) : Bool := p.data.isPrefixOf s.data

/-- Python `s.endswith(p)`. -/
def strEndsWith (s p : String) : Bool := p.data.isSuffixOf s.data

/-- Everything after the leftmost occurrence of `sub`, or `none` if `sub`
does not occur. -/
def afterSub (sub : List Char) : List Char → Option (List Char)
  | [] => if sub.isEmpty then some [] else none
  | c :: rest =>
    if sub.isPrefixOf (c :: rest) then some ((c :: rest).drop sub.length)
    else afterSub sub rest

/-- Python `sub in s`. -/
def strContains (s sub : String) : Bool := (afterSub sub.data s.data).isSome

/-- Python `s.split(sub, 1)[-1]` (also `[1]` when the source has already
checked that `sub` occurs in `s`): the text after the first occurrence of
`sub`, or `s` itself when `sub` does not occur. -/
def afterFirst (s sub : String) : String :=
  match afterSub sub.data s.data with
  | some r => ⟨r⟩
  | none => s

/-- Python `"\n".join(step_text.split("\\n"))`: replace each literal
two-character escape `\n` by a real line break, left to right. -/
def expandEscapes : List Char → List Char
  | '\\' :: 'n' :: rest => '\n' :: expandEscapes rest
  | c :: rest => c :: expandEscapes rest
  | [] => []

/-- Python `sep.join(xs)`. -/
def joinSep (sep : String) : List String → String
  | [] => ""
  | [s] => s
  | s :: rest => s ++ sep ++ joinSep sep rest

/-- `TestCaseTag.DESCRIPTION.value`. -/
def markerDescription : String := "Description:"

/-- `TestCaseTag.TEST_STEP.value`. -/
def markerStep : String := "Step:"

/-- `TestCaseTag.EXPECTED_OUTPUT.value`. -/
def markerExpectedOutput : String := "Expected Output:"

/-- `TestCaseTag.PRECONDITION.value`. -/
def markerPrecondition : String := "Precondition:"

/-- The `step_text` cascade shared by all block-comment loops:
strip `""" <marker>` (or `''' <marker>`) after its first occurrence if
present, else keep the line (`test_sheet.py` lines 102-109, 166-173,
229-236, 280-287). -/
def stripTagMarker (marker line : String) : String :=
  if strContains line ("\"\"\" " ++ marker) then afterFirst line ("\"\"\" " ++ marker)
  else if strContains line ("''' " ++ marker) then afterFirst line ("''' " ++ marker)
  else line

/-- The text retained for one single-line `#` comment in the backward
description scan (`test_sheet.py` lines 121-125): text after the marker,
trimmed, when the marker occurs anywhere in the line; otherwise the line
with its leading `#` characters stripped, trimmed. -/
def descSingleItem (line : String) : String :=
  if strContains line markerDescription then pyStrip (afterFirst line markerDescription)
  else pyStrip ⟨line.data.dropWhile (fun c => c = '#')⟩

/-- The inner `while i >= 0` loop of the backward description scan
(`test_sheet.py` lines 101-116), entered at index `i`: collect stripped
line texts walking upward, stopping inclusively at the first line that
starts with a triple quote (the block opener); the resulting list is in
collection order (downward in source), reversed by the caller. -/
def descBlockCollect (lines : List String) : Nat → Except Unit (List String)
  | 0 =>
    match lines[0]? with
    | none => .error ()
    | some raw => .ok [stripTagMarker markerDescription (pyStrip raw)]
  | j + 1 =>
    match lines[j + 1]? with
    | none => .error ()
    | some raw =>
      let line := pyStrip raw
      let t := stripTagMarker markerDescription line
      if strStartsWith line "\"\"\"" || strStartsWith line "'''" then .ok [t]
      else
        match descBlockCollect lines j with
        | .error e => .error e
        | .ok rest => .ok (t :: rest)

/-- The outer `for i in range(function_start - 1, -1, -1)` loop of
`extract_description` (`test_sheet.py` lines 94-126), processing index
`i` downward: stop at the first line that is neither a `#` comment, a
`@` decorator, nor a triple quote; on a triple quote, collect the block
(reversed to source order) and stop; on a `#` comment append its item;
on a `@` line append nothing and continue.  Returns the appended items in
append order. -/
def descLoop (lines : List String) : Nat → Except Unit (List String)
  | 0 =>
    match lines[0]? with
    | none => .error ()
    | some raw =>
      let line := pyStrip raw
      if !(strStartsWith line "#" || strStartsWith line "@" ||
           strStartsWith line "\"\"\"" || strStartsWith line "'''") then .ok []
      else if strStartsWith line "\"\"\"" || strStartsWith line "'''" then .ok []
      else if strStartsWith line "#" then .ok [descSingleItem line]
      else .ok []
  | j + 1 =>
    match lines[j + 1]? with
    | none => .error ()
    | some raw =>
      let line := pyStrip raw
      if !(strStartsWith line "#" || strStartsWith line "@" ||
           strStartsWith line "\"\"\"" || strStartsWith line "'''") then .ok []
      else if strStartsWith line "\"\"\"" || strStartsWith line "'''" then
        match descBlockCollect lines j with
        | .error e => .error e
        | .ok c => .ok c.reverse
      else if strStartsWith line "#" then
        match descLoop lines j with
        | .error e => .error e
        | .ok rest => .ok (descSingleItem line :: rest)
      else
        descLoop lines j

/-- The body of `extract_description` before its `try/except`
(`test_sheet.py` lines 91-133): `function_start = node.lineno - 1`; when
the backward range is empty the result is `None`, otherwise the collected
items are space-joined and stripped, `None` when nothing was collected. -/
def extract_description_core (lines : List String) (lineno : Nat) :
    Except Unit (Option String) :=
  match lineno - 1 with
  | 0 => .ok none
  | fs + 1 =>
    match descLoop lines fs with
    | .error e => .error e
    | .ok ds => .ok (if ds.isEmpty then none else some (pyStrip (joinSep " " ds)))

/-- `extract_description` with its `try/except Exception` wrapper, which
logs and implicitly returns `None` (`test_sheet.py` lines 134-137). -/
def extract_description (lines : List String) (lineno : Nat) : Option String :=
  match extract_description_core lines lineno with
  | .ok v => v
  | .error _ => none

/-- One collected element of a forward block scan: the marker-stripped
line text with any literal `\n` escape expanded into real line breaks
(`test_sheet.py` lines 174-181 and the two identical copies). -/
def blockItem (marker line : String) : String :=
  let t := stripTagMarker marker line
  if strContains t "\\n" then ⟨expandEscapes t.data⟩ else t

/-- The inner `while i < function_end` loop of the forward scanners
(`test_sheet.py` lines 163-183, 226-246, 277-297), entered at the block's
opening line index `i`: collect `blockItem`s until a line *ends with* a
closing triple quote (that line's content is dropped: the `break` comes
before the append) or the function span is exhausted.  Returns the
collected items together with the offset from `i` at which the loop
stopped.  The first argument is the iteration budget; the wrapper below
passes `function_end - i`, which is exact since the loop advances `i` by
one each iteration. -/
def blockCollectAux (marker : String) (lines : List String) (fend : Nat) :
    Nat → Nat → Except Unit (List String × Nat)
  | 0, _ => .ok ([], 0)
  | fuel + 1, i =>
    if i < fend then
      match lines[i]? with
      | none => .error ()
      | some raw =>
        let line := pyStrip raw
        if strEndsWith line "\"\"\"" || strEndsWith line "'''" then .ok ([], 0)
        else
          match blockCollectAux marker lines fend fuel (i + 1) with
          | .error e => .error e
          | .ok (rest, d) => .ok (blockItem marker line :: rest, d + 1)
    else .ok ([], 0)

/-- The inner block loop with its exact iteration budget. -/
def blockCollect (marker : String) (lines : List String) (fend i : Nat) :
    Except Unit (List String × Nat) :=
  blockCollectAux marker lines fend (fend - i) i

/-- The outer `while i < function_end` loop shared by
`extract_pre_condition`, `extract_test_steps` and
`extract_expected_output` (`test_sheet.py` lines 155-198, 218-260,
269-311), which differ only in their marker.  On `# <marker>` emit a
numbered entry and bump the counter; on `""" <marker>` / `''' <marker>`
consume the block, emit one numbered entry for the whole block only when
something was collected, and resume after the block's stopping line;
otherwise skip the line.  The first `Nat` is the iteration budget; each
iteration advances `i` by at least one, so `function_end - i` bounds the
iteration count and the budget-exhausted branch coincides with the loop
guard being false. -/
def fwdLoopAux (marker : String) (lines : List String) (fend : Nat) :
    Nat → Nat → Nat → Except Unit (List String)
  | 0, _, _ => .ok []
  | fuel + 1, counter, i =>
    if i < fend then
      match lines[i]? with
      | none => .error ()
      | some raw =>
        let line := pyStrip raw
        if strStartsWith line ("# " ++ marker) then
          match fwdLoopAux marker lines fend fuel (counter + 1) (i + 1) with
          | .error e => .error e
          | .ok rest =>
            .ok ((Nat.repr counter ++ ". " ++
                  pyStrip (afterFirst line ("# " ++ marker))) :: rest)
        else if strStartsWith line ("\"\"\" " ++ marker) ||
                strStartsWith line ("''' " ++ marker) then
          match blockCollectAux marker lines fend (fend - i) i with
          | .error e => .error e
          | .ok (cls, d) =>
            if cls.isEmpty then fwdLoopAux marker lines fend fuel counter (i + d + 1)
            else
              match fwdLoopAux marker lines fend fuel (counter + 1) (i + d + 1) with
              | .error e => .error e
              | .ok rest =>
                .ok ((Nat.repr counter ++ ". " ++ pyStrip (joinSep " " cls)) :: rest)
        else fwdLoopAux marker lines fend fuel counter (i + 1)
    else .ok []

/-- The forward scan loop with its exact iteration budget, counter and
start index as in the source (`step_counter = 1`, `i = function_start + 1`
supplied by `extract_tag_core`). -/
def fwdLoop (marker : String) (lines : List String) (fend counter i : Nat) :
    Except Unit (List String) :=
  fwdLoopAux marker lines fend (fend - i) counter i

/-- `function_end = node.end_lineno if hasattr(node, "end_lineno") else
function_start + 1` (`test_sheet.py` lines 157, 220, 271). -/
def functionEnd (lineno : Nat) (endLineno : Option Nat) : Nat :=
  match endLineno with
  | some e => e
  | none => (lineno - 1) + 1

/-- Body of a forward extractor before its `try/except`: counter starts
at 1, scan runs from index `function_start + 1` to `function_end`
exclusive. -/
def extract_tag_core (marker : String) (lines : List String) (lineno : Nat)
    (endLineno : Option Nat) : Except Unit (List String) :=
  fwdLoop marker lines (functionEnd lineno endLineno) 1 ((lineno - 1) + 1)

/-- Body of `extract_pre_condition` before its `try/except`
(`test_sheet.py` lines 139-198). -/
def extract_pre_condition_core (lines : List String) (lineno : Nat)
    (endLineno : Option Nat) : Except Unit (List String) :=
  extract_tag_core markerPrecondition lines lineno endLineno

/-- Body of `extract_test_steps` before its `try/except`
(`test_sheet.py` lines 203-260). -/
def extract_test_steps_core (lines : List String) (lineno : Nat)
    (endLineno : Option Nat) : Except Unit (List String) :=
  extract_tag_core markerStep lines lineno endLineno

/-- Body of `extract_expected_output` before its `try/except`
(`test_sheet.py` lines 262-311). -/
def extract_expected_output_core (lines : List String) (lineno : Nat)
    (endLineno : Option Nat) : Except Unit (List String) :=
  extract_tag_core markerExpectedOutput lines lineno endLineno

/-- The `try/except Exception` wrapper of the forward extractors: on any
exception the function logs and implicitly returns `None`. -/
def catchForward (x : Except Unit (List String)) : Option (List String) :=
  match x with
  | .ok v => some v
  | .error _ => none

/-- `extract_pre_condition` as called by `extract_function_info`. -/
def extract_pre_condition (lines : List String) (lineno : Nat)
    (endLineno : Option Nat) : Option (List String) :=
  catchForward (extract_pre_condition_core lines lineno endLineno)

/-- `extract_test_steps` as called by `extract_function_info`. -/
def extract_test_steps (lines : List String) (lineno : Nat)
    (endLineno : Option Nat) : Option (List String) :=
  catchForward (extract_test_steps_core lines lineno endLineno)

/-- `extract_expected_output` as called by `extract_function_info`. -/
def extract_expected_output (lines : List String) (lineno : Nat)
    (endLineno : Option Nat) : Option (List String) :=
  catchForward (extract_expected_output_core lines lineno endLineno)

/-- The name and line span of a discovered `ast.FunctionDef`, as supplied
by the external tree walker (spec §3 `FunctionBoundary`). -/
structure FunctionBoundary where
  name : String
  lineno : Nat
  end_lineno : Option Nat
deriving DecidableEq

/-- The dictionary assembled by `extract_function_info`
(`test_sheet.py` lines 68-77), field per key. -/
structure TestCaseRecord where
  testCaseName : String
  automationStatus : String
  testCaseDescription : String
  preCondition : String
  testSteps : String
  expectedOutput : String
  testResult : String
deriving DecidableEq

/-- Python `"\n".join(xs) if xs else ""` applied to an optional list
(`None` from a caught exception, or the extractor's list). -/
def joinLinesField (x : Option (List String)) : String :=
  match x with
  | none => ""
  | some l => if l.isEmpty then "" else joinSep "\n" l

/-- `extract_function_info` (`test_sheet.py` lines 53-79): each field is
computed by its own wrapped extractor; `description or ""` maps `None`
to the empty string. -/
def extract_function_info (lines : List String) (node : FunctionBoundary) :
    TestCaseRecord where
  testCaseName := node.name
  automationStatus := ""
  testCaseDescription := (extract_description lines node.lineno).getD ""
  preCondition := joinLinesField (extract_pre_condition lines node.lineno node.end_lineno)
  testSteps := joinLinesField (extract_test_steps lines node.lineno node.end_lineno)
  expectedOutput := joinLinesField (extract_expected_output lines node.lineno node.end_lineno)
  testResult := ""

/-- `parse_test_cases` (`test_sheet.py` lines 335-343) over the boundary
sequence produced by the external `ast.walk`: append a record for each
walked `FunctionDef` whose name starts with `test_`. -/
def parse_test_cases (lines : List String) : List FunctionBoundary → List TestCaseRecord
  | [] => []
  | n :: rest =>
    if strStartsWith n.name "test_" then
      extract_function_info lines n :: parse_test_cases lines rest
    else parse_test_cases lines rest

/-- What `os.path.isfile` / `os.path.isdir` report for the input path. -/
inductive PathKind
  | isFile
  | isDir
  | missing
deriving DecidableEq

/-- Observable outcome of one `run` invocation: whether the
`logging.error("Invalid path: ...")` branch was taken and whether the
`wb.save(...)` statement was reached. -/
structure RunOutcome where
  fatalLogged : Bool
  outputSaved : Bool
deriving DecidableEq

/-- Control flow of `TestSheet.run` (`test_sheet.py` lines 418-435):
on a file or directory the workbook is processed and saved; otherwise an
error is logged and the method returns before the save. -/
def runPath (kind : PathKind) : RunOutcome :=
  match kind with
  | .isFile => { fatalLogged := false, outputSaved := true }
  | .isDir => { fatalLogged := false, outputSaved := true }
  | .missing => { fatalLogged := true, outputSaved := false }

/-- Control flow of `main` in `test_sheet/cli.py`: with an argument count
other than 2 a usage message is printed and the process exits with status
1 before `run` is called; otherwise `run` executes and `main` returns
normally, so the process exits with status 0.  Result: exit status paired
with the run outcome. -/
def cliMain (argc : Nat) (kind : PathKind) : Nat × RunOutcome :=
  if argc ≠ 2 then (1, { fatalLogged := false, outputSaved := false })
  else (0, runPath kind)

/-! ### Helper lemmas -/

/-- Once the index has reached the end of the function span, the forward
scan loop emits nothing, whatever its iteration budget. -/
theorem fwdLoopAux_of_le (marker : String) (lines : List String) (fend : Nat) :
    ∀ fuel counter i, fend ≤ i →
      fwdLoopAux marker lines fend fuel counter i = .ok [] := by
  intro fuel counter i h
  cases fuel with
  | zero => rfl
  | succ fuel => simp [fwdLoopAux, Nat.not_lt.mpr h]

/-! ### Claims -/

/-- Claim C5: `parse_test_cases` produces exactly one record for every
discovered function whose name starts with `test_`, in discovery order,
and no record for any other function: it equals the map of
`extract_function_info` over the `test_`-filtered boundary list. -/
theorem C5_parse_test_cases_filter (lines : List String)
    (walked : List FunctionBoundary) :
    parse_test_cases lines walked =
      (walked.filter (fun n => strStartsWith n.name "test_")).map
        (extract_function_info lines) := by
  induction walked with
  | nil => rfl
  | cons n rest ih =>
    by_cases hp : strStartsWith n.name "test_" = true
    · simp [parse_test_cases, hp, ih]
    · simp [parse_test_cases, hp, ih]

/-- Claim C8: with `end_lineno` absent, every forward extractor treats the
function as one line: the scan loop starts at `function_start + 1` with
`function_end = function_start + 1`, performs zero iterations, touches no
line-buffer index (result `.ok`, never `.error`), and returns the empty
list. -/
theorem C8_absent_end_line (lines : List String) (lineno : Nat) :
    extract_pre_condition_core lines lineno none = .ok [] ∧
    extract_test_steps_core lines lineno none = .ok [] ∧
    extract_expected_output_core lines lineno none = .ok [] ∧
    extract_pre_condition lines lineno none = some [] ∧
    extract_test_steps lines lineno none = some [] ∧
    extract_expected_output lines lineno none = some [] := by
  have h : ∀ m, extract_tag_core m lines lineno none = .ok [] := by
    intro m
    simp [extract_tag_core, fwdLoop, functionEnd, Nat.sub_self, fwdLoopAux]
  exact ⟨h _, h _, h _,
    by simp [extract_pre_condition, extract_pre_condition_core, catchForward, h _],
    by simp [extract_test_steps, extract_test_steps_core, catchForward, h _],
    by simp [extract_expected_output, extract_expected_output_core, catchForward, h _]⟩

/-- Claim C1 (counterexample): with the two single-line comments
`# first` and `# second` directly above `def test_x():`, the assembled
description is `"second first"` — decreasing line order — not the
increasing-order `"first second"` the claim requires. -/
theorem C1_counterexample :
    extract_description ["# first", "# second", "def test_x():"] 3 =
      some "second first" ∧
    extract_description ["# first", "# second", "def test_x():"] 3 ≠
      some "first second" := by decide

/-- Claim C2 (counterexample): for a `Step:` block whose closing line is
`do B '''`, the emitted step is `"1. do A"`: the closing line's content
`do B` is not included, refuting the claim's inclusive reading
(`"1. do A do B"`). -/
theorem C2_counterexample :
    extract_test_steps ["def test_x():", "''' Step: do A", "do B '''", "pass"]
        1 (some 4) = some ["1. do A"] ∧
    extract_test_steps ["def test_x():", "''' Step: do A", "do B '''", "pass"]
        1 (some 4) ≠ some ["1. do A do B"] := by decide

/-- Claim C3 (counterexample): for the single physical line
`''' Step: do X\ndo Y '''` (literal two-character escape) the extractor
yields zero steps — the ends-with-closing-quote check fires on the very
first line consumed, before anything is collected — not the single step
`"1. do X\ndo Y"` the claim requires. -/
theorem C3_counterexample :
    extract_test_steps ["def test_x():", "''' Step: do X\\ndo Y '''", "pass"]
        1 (some 3) = some [] ∧
    extract_test_steps ["def test_x():", "''' Step: do X\\ndo Y '''", "pass"]
        1 (some 3) ≠ some ["1. do X\ndo Y"] := by decide

/-- Claim C9 (counterexample): when the input path is neither a file nor a
directory, `run` logs the fatal error and never reaches the workbook
save, but `main` returns normally, so the process exit status is 0 — not
non-zero as claimed. -/
theorem C9_counterexample :
    (cliMain 2 PathKind.missing).1 = 0 ∧
    (cliMain 2 PathKind.missing).2.fatalLogged = true ∧
    (cliMain 2 PathKind.missing).2.outputSaved = false := by decide

/-- Claim C9 (amended): on a missing input path a fatal error is logged
and no output artifact is written, but the process exits with status 0;
a non-zero exit status occurs only for argument-count usage errors. -/
theorem C9_amended :
    runPath PathKind.missing = { fatalLogged := true, outputSaved := false } ∧
    cliMain 2 PathKind.missing = (0, { fatalLogged := true, outputSaved := false }) ∧
    cliMain 1 PathKind.missing = (1, { fatalLogged := false, outputSaved := false }) ∧
    cliMain 3 PathKind.missing = (1, { fatalLogged := false, outputSaved := false }) := by
  decide

/-- One unfolding of the forward loop at a matching single-line tagged
comment: emit the numbered trimmed text, bump the counter, advance one
line. -/
theorem fwdLoopAux_single_step (marker : String) (lines : List String)
    (fend fuel counter i : Nat) (raw : String)
    (h1 : i < fend) (h2 : lines[i]? = some raw)
    (hs : strStartsWith (pyStrip raw) ("# " ++ marker) = true) :
    fwdLoopAux marker lines fend (fuel + 1) counter i =
      Except.map
        (fun rest => (Nat.repr counter ++ ". " ++
          pyStrip (afterFirst (pyStrip raw) ("# " ++ marker))) :: rest)
        (fwdLoopAux marker lines fend fuel (counter + 1) (i + 1)) := by
  simp only [fwdLoopAux]
  rw [if_pos h1, h2]
  cases hrec : fwdLoopAux marker lines fend fuel (counter + 1) (i + 1) <;>
    simp [hrec, hs, Except.map]

/-- Claim C6: a function whose first body line is the single-line comment
`# Step: do X` yields the step text `"1. do X"` — the text after the
marker trimmed and prefixed with the counter and `". "` — and the scan of
the remaining body lines continues with the counter incremented to 2. -/
theorem C6_single_line_step (lines : List String) (lineno : Nat)
    (endLineno : Option Nat) (raw : String)
    (h0 : 1 ≤ lineno)
    (h1 : lineno < functionEnd lineno endLineno)
    (h2 : lines[lineno]? = some raw)
    (h3 : pyStrip raw = "# Step: do X") :
    extract_test_steps_core lines lineno endLineno =
      Except.map (fun rest => "1. do X" :: rest)
        (fwdLoop markerStep lines (functionEnd lineno endLineno) 2 (lineno + 1)) := by
  have hfs : (lineno - 1) + 1 = lineno := by omega
  unfold extract_test_steps_core extract_tag_core fwdLoop
  rw [hfs]
  obtain ⟨f, hf⟩ : ∃ f, functionEnd lineno endLineno - lineno = f + 1 :=
    ⟨functionEnd lineno endLineno - lineno - 1, by omega⟩
  have hff : functionEnd lineno endLineno - (lineno + 1) = f := by omega
  rw [hf, hff]
  have hs : strStartsWith (pyStrip raw) ("# " ++ markerStep) = true := by
    rw [h3]; decide
  rw [fwdLoopAux_single_step markerStep lines (functionEnd lineno endLineno)
    f 1 lineno raw h1 h2 hs]
  rw [h3]
  rfl

/-- Witness for C6 at a concrete three-line function. -/
theorem C6_witness :
    extract_test_steps_core ["def test_x():", "# Step: do X", "pass"] 1 (some 3) =
      Except.map (fun rest => "1. do X" :: rest)
        (fwdLoop markerStep ["def test_x():", "# Step: do X", "pass"] 3 2 2) :=
  C6_single_line_step ["def test_x():", "# Step: do X", "pass"] 1 (some 3)
    "# Step: do X" (by omega) (by decide) rfl (by decide)

/-- Every entry emitted by the forward scan loop started at counter `c`
carries the decimal number `c + k` at position `k`: the counter is
incremented exactly once per emitted segment, a block counting once. -/
theorem fwdLoopAux_numbering (marker : String) (lines : List String) (fend : Nat) :
    ∀ fuel counter i l, fwdLoopAux marker lines fend fuel counter i = .ok l →
      ∀ k s, l[k]? = some s → ∃ t, s = Nat.repr (counter + k) ++ ". " ++ t := by
  intro fuel
  induction fuel with
  | zero =>
    intro counter i l h k s hk
    simp only [fwdLoopAux] at h
    cases h
    simp at hk
  | succ fuel ih =>
    intro counter i l h k s hk
    simp only [fwdLoopAux] at h
    split at h
    · split at h
      · exact absurd h (by simp)
      · split at h
        · split at h
          · exact absurd h (by simp)
          · rename_i rest heq
            cases h
            cases k with
            | zero =>
              simp only [List.getElem?_cons_zero, Option.some.injEq] at hk
              exact ⟨_, by rw [Nat.add_zero]; exact hk.symm⟩
            | succ k =>
              simp only [List.getElem?_cons_succ] at hk
              obtain ⟨t, ht⟩ := ih (counter + 1) _ rest heq k s hk
              have harith : counter + 1 + k = counter + (k + 1) := by omega
              rw [harith] at ht
              exact ⟨t, ht⟩
        · split at h
          · split at h
            · exact absurd h (by simp)
            · split at h
              · exact ih counter _ l h k s hk
              · split at h
                · exact absurd h (by simp)
                · rename_i rest heq
                  cases h
                  cases k with
                  | zero =>
                    simp only [List.getElem?_cons_zero, Option.some.injEq] at hk
                    exact ⟨_, by rw [Nat.add_zero]; exact hk.symm⟩
                  | succ k =>
                    simp only [List.getElem?_cons_succ] at hk
                    obtain ⟨t, ht⟩ := ih (counter + 1) _ rest heq k s hk
                    have harith : counter + 1 + k = counter + (k + 1) := by omega
                    rw [harith] at ht
                    exact ⟨t, ht⟩
          · exact ih counter _ l h k s hk
    · cases h
      simp at hk

/-- Claim C7: for every function and every forward tag (Precondition,
Step, Expected Output — any `marker`), the pass's counter starts at 1 and
increments once per emitted segment, so the `k`-th emitted entry (0-based
`k`) is prefixed with `"{k+1}. "`.  The counter is a local of one
`extract_tag_core` call, hence never shared across tags or functions. -/
theorem C7_counter_numbering (marker : String) (lines : List String)
    (lineno : Nat) (endLineno : Option Nat) (l : List String)
    (h : extract_tag_core marker lines lineno endLineno = .ok l) :
    ∀ k s, l[k]? = some s → ∃ t, s = Nat.repr (k + 1) ++ ". " ++ t := by
  intro k s hk
  obtain ⟨t, ht⟩ :=
    fwdLoopAux_numbering marker lines (functionEnd lineno endLineno) _ 1 _ l h k s hk
  have harith : 1 + k = k + 1 := by omega
  rw [harith] at ht
  exact ⟨t, ht⟩

/-- Witness for C7: the second of two single-line steps is numbered 2. -/
theorem C7_witness :
    ∃ t, "2. b" = Nat.repr 2 ++ ". " ++ t :=
  C7_counter_numbering markerStep ["def test_x():", "# Step: a", "# Step: b", "pass"]
    1 (some 4) ["1. a", "2. b"] rfl 1 "2. b" rfl

/-- Claim C2 (amended): in every forward block scan, the line that ends
with a closing triple-quote terminates the block, but that line's content
before the quote is EXCLUDED from the step text: the loop breaks before
appending it.  Here: a block whose second line closes it collects only
the first line's item and stops at offset 1 (the closing line). -/
theorem C2_amended (marker : String) (lines : List String) (fend i : Nat)
    (r0 r1 : String)
    (h1 : i < fend) (h2 : i + 1 < fend)
    (g0 : lines[i]? = some r0) (g1 : lines[i + 1]? = some r1)
    (e0 : strEndsWith (pyStrip r0) "\"\"\"" = false)
    (e0' : strEndsWith (pyStrip r0) "'''" = false)
    (e1 : strEndsWith (pyStrip r1) "\"\"\"" = true ∨
          strEndsWith (pyStrip r1) "'''" = true) :
    blockCollect marker lines fend i = .ok ([blockItem marker (pyStrip r0)], 1) := by
  unfold blockCollect
  obtain ⟨f, hf⟩ : ∃ f, fend - i = f + 2 := ⟨fend - i - 2, by omega⟩
  rw [hf]
  simp only [blockCollectAux]
  rw [if_pos h1, g0, if_pos h2, g1]
  rcases e1 with e1 | e1 <;> simp [e0, e0', e1]

/-- Witness for the amended C2 at the concrete block of the
counterexample: only `do A` is collected, `do B '''` terminates. -/
theorem C2_amended_witness :
    blockCollect markerStep ["def test_x():", "''' Step: do A", "do B '''", "pass"] 4 1 =
      .ok ([blockItem markerStep (pyStrip "''' Step: do A")], 1) :=
  C2_amended markerStep ["def test_x():", "''' Step: do A", "do B '''", "pass"] 4 1
    "''' Step: do A" "do B '''" (by omega) (by omega) rfl rfl
    (by decide) (by decide) (Or.inr (by decide))

/-- Claim C3 (amended): a tagged block whose opening line itself ends
with a closing triple-quote (the one-physical-line block of the claim)
yields ZERO steps: the ends-with check fires on the first line consumed,
nothing is collected, nothing is emitted, the counter is unchanged, and
scanning resumes at the next line. -/
theorem C3_amended (marker : String) (lines : List String) (fend c i : Nat)
    (raw : String)
    (h1 : i < fend)
    (h2 : lines[i]? = some raw)
    (hns : strStartsWith (pyStrip raw) ("# " ++ marker) = false)
    (hs : strStartsWith (pyStrip raw) ("\"\"\" " ++ marker) = true ∨
          strStartsWith (pyStrip raw) ("''' " ++ marker) = true)
    (he : strEndsWith (pyStrip raw) "\"\"\"" = true ∨
          strEndsWith (pyStrip raw) "'''" = true) :
    fwdLoop marker lines fend c i = fwdLoop marker lines fend c (i + 1) := by
  unfold fwdLoop
  obtain ⟨f, hf⟩ : ∃ f, fend - i = f + 1 := ⟨fend - i - 1, by omega⟩
  have hff : fend - (i + 1) = f := by omega
  rw [hf, hff]
  simp only [fwdLoopAux]
  rw [if_pos h1, h2]
  have hbc : blockCollectAux marker lines fend (fend - i) i = .ok ([], 0) := by
    rw [hf]
    simp only [blockCollectAux]
    rw [if_pos h1, h2]
    rcases he with he | he <;> simp [he]
  rcases hs with hs | hs <;> simp [hns, hs, hbc]

/-- Witness for the amended C3 at the one-line block of the
counterexample. -/
theorem C3_amended_witness :
    fwdLoop markerStep ["def test_x():", "''' Step: do X\\ndo Y '''", "pass"] 3 1 1 =
      fwdLoop markerStep ["def test_x():", "''' Step: do X\\ndo Y '''", "pass"] 3 1 2 :=
  C3_amended markerStep ["def test_x():", "''' Step: do X\\ndo Y '''", "pass"] 3 1 1
    "''' Step: do X\\ndo Y '''" (by omega) rfl (by decide)
    (Or.inr (by decide)) (Or.inr (by decide))

/-- When no line of the remaining span ends with a closing triple-quote,
the block scan collects every remaining line (never raising), stopping at
the end of the span, with at least one line collected when the span is
non-empty. -/
theorem blockCollectAux_no_close (marker : String) (lines : List String)
    (fend : Nat) :
    ∀ fuel i, fend ≤ i + fuel →
      (∀ j, j < fend → i ≤ j → j < lines.length ∧
        strEndsWith (pyStrip (lines[j]?.getD "")) "\"\"\"" = false ∧
        strEndsWith (pyStrip (lines[j]?.getD "")) "'''" = false) →
      ∃ cls, blockCollectAux marker lines fend fuel i = .ok (cls, fend - i) ∧
        (i < fend → cls ≠ []) := by
  intro fuel
  induction fuel with
  | zero =>
    intro i hfuel H
    have h0 : fend - i = 0 := by omega
    exact ⟨[], by rw [h0]; rfl, fun hlt => absurd hlt (by omega)⟩
  | succ fuel ih =>
    intro i hfuel H
    by_cases hlt : i < fend
    · obtain ⟨hlen, hq1, hq2⟩ := H i hlt (le_refl i)
      have hsome : lines[i]? = some (lines[i]?.getD "") := by
        cases hx : lines[i]? with
        | none => exact absurd (List.getElem?_eq_none_iff.mp hx) (by omega)
        | some v => rfl
      obtain ⟨cls, hc, hne⟩ := ih (i + 1) (by omega)
        (fun j hj hij => H j hj (by omega))
      refine ⟨blockItem marker (pyStrip (lines[i]?.getD "")) :: cls, ?_, fun _ => by simp⟩
      simp only [blockCollectAux]
      rw [if_pos hlt, hsome]
      have harith : fend - (i + 1) + 1 = fend - i := by omega
      simp [hq1, hq2, hc, harith]
    · have h0 : fend - i = 0 := by omega
      refine ⟨[], ?_, fun h => absurd h hlt⟩
      rw [h0]
      simp [blockCollectAux, hlt]

/-- Claim C10: a tagged block comment opened inside the function span and
never closed by a line ending with a triple-quote is not discarded and
raises nothing: the inner loop exhausts the span, the collected lines
(at least the opening one) are space-joined, and the forward scan emits
them as a single numbered step, after which the scan is past the span. -/
theorem C10_unterminated_block (marker : String) (lines : List String)
    (fend c i : Nat) (raw : String)
    (h1 : i < fend)
    (h2 : lines[i]? = some raw)
    (hns : strStartsWith (pyStrip raw) ("# " ++ marker) = false)
    (hs : strStartsWith (pyStrip raw) ("\"\"\" " ++ marker) = true ∨
          strStartsWith (pyStrip raw) ("''' " ++ marker) = true)
    (H : ∀ j, j < fend → i ≤ j → j < lines.length ∧
          strEndsWith (pyStrip (lines[j]?.getD "")) "\"\"\"" = false ∧
          strEndsWith (pyStrip (lines[j]?.getD "")) "'''" = false) :
    ∃ cls, cls ≠ [] ∧ blockCollect marker lines fend i = .ok (cls, fend - i) ∧
      fwdLoop marker lines fend c i =
        .ok [Nat.repr c ++ ". " ++ pyStrip (joinSep " " cls)] := by
  obtain ⟨cls, hbc, hne⟩ :=
    blockCollectAux_no_close marker lines fend (fend - i) i (by omega) H
  refine ⟨cls, hne h1, hbc, ?_⟩
  unfold fwdLoop
  obtain ⟨f, hf⟩ : ∃ f, fend - i = f + 1 := ⟨fend - i - 1, by omega⟩
  rw [hf]
  simp only [fwdLoopAux]
  rw [if_pos h1, h2, hf]
  rw [hf] at hbc
  have hpast : fwdLoopAux marker lines fend f (c + 1) (i + (f + 1) + 1) = .ok [] :=
    fwdLoopAux_of_le marker lines fend f (c + 1) (i + (f + 1) + 1) (by omega)
  have hcls : cls.isEmpty = false := by
    cases cls with
    | nil => exact absurd rfl (hne h1)
    | cons a l => rfl
  rcases hs with hs | hs <;> simp [hns, hs, hbc, hcls, hpast]

/-- Witness for C10: an unterminated `Step:` block spanning the rest of
the function becomes the single step `1. do A do B`. -/
theorem C10_witness :
    ∃ cls, cls ≠ [] ∧
      blockCollect markerStep ["def test_x():", "''' Step: do A", "do B"] 3 1 =
        .ok (cls, 3 - 1) ∧
      fwdLoop markerStep ["def test_x():", "''' Step: do A", "do B"] 3 1 1 =
        .ok [Nat.repr 1 ++ ". " ++ pyStrip (joinSep " " cls)] :=
  C10_unterminated_block markerStep ["def test_x():", "''' Step: do A", "do B"]
    3 1 1 "''' Step: do A" (by omega) rfl (by decide) (Or.inr (by decide))
    (by decide)

/-- When indices `0..n` all hold single-line `#` comments, the backward
description loop collects exactly their items indexed in DECREASING line
order (`n, n-1, ..., 0`): single-line segments are accumulated in scan
order and never re-reversed. -/
theorem descLoop_all_hash (lines : List String) :
    ∀ n, (∀ j, j ≤ n → j < lines.length ∧
            strStartsWith (pyStrip (lines[j]?.getD "")) "#" = true ∧
            strStartsWith (pyStrip (lines[j]?.getD "")) "\"\"\"" = false ∧
            strStartsWith (pyStrip (lines[j]?.getD "")) "'''" = false) →
      descLoop lines n = .ok (((List.range (n + 1)).reverse).map
        (fun j => descSingleItem (pyStrip (lines[j]?.getD "")))) := by
  intro n
  induction n with
  | zero =>
    intro H
    obtain ⟨hlen, hh, hq1, hq2⟩ := H 0 (le_refl 0)
    have hsome : lines[0]? = some (lines[0]?.getD "") := by
      cases hx : lines[0]? with
      | none => exact absurd (List.getElem?_eq_none_iff.mp hx) (by omega)
      | some v => rfl
    simp only [descLoop]
    rw [hsome]
    simp [hh, hq1, hq2]
    rfl
  | succ n ih =>
    intro H
    obtain ⟨hlen, hh, hq1, hq2⟩ := H (n + 1) (le_refl (n + 1))
    have hsome : lines[n + 1]? = some (lines[n + 1]?.getD "") := by
      cases hx : lines[n + 1]? with
      | none => exact absurd (List.getElem?_eq_none_iff.mp hx) (by omega)
      | some v => rfl
    have hrec := ih (fun j hj => H j (by omega))
    simp only [descLoop]
    rw [hsome]
    simp [hh, hq1, hq2, hrec, List.range_succ]

/-- Claim C1 (amended): when the lines above the function are all
single-line `#` comments, the assembled description is their items in
DECREASING line order (the backward scan order, exhibited by
`(List.range (lineno - 1)).reverse = [lineno-2, ..., 0]`), space-joined;
only the lines inside one triple-quoted block are reversed back to source
order, single-line segments are not. -/
theorem C1_amended (lines : List String) (lineno : Nat)
    (h0 : 2 ≤ lineno)
    (H : ∀ j, j ≤ lineno - 2 → j < lines.length ∧
          strStartsWith (pyStrip (lines[j]?.getD "")) "#" = true ∧
          strStartsWith (pyStrip (lines[j]?.getD "")) "\"\"\"" = false ∧
          strStartsWith (pyStrip (lines[j]?.getD "")) "'''" = false) :
    extract_description lines lineno =
      some (pyStrip (joinSep " " (((List.range (lineno - 1)).reverse).map
        (fun j => descSingleItem (pyStrip (lines[j]?.getD "")))))) := by
  have hds := descLoop_all_hash lines (lineno - 2) H
  have h1 : lineno - 1 = (lineno - 2) + 1 := by omega
  unfold extract_description extract_description_core
  rw [h1]
  simp only [hds]
  have hne : (((List.range ((lineno - 2) + 1)).reverse).map
      (fun j => descSingleItem (pyStrip (lines[j]?.getD "")))).isEmpty = false := by
    simp [List.isEmpty_iff, List.range_succ]
  simp [hne]

/-- Witness for the amended C1: two `#` comments above the function give
`"two one"` — the later line's text first. -/
theorem C1_witness :
    extract_description ["# one", "# two", "def test_y():"] 3 =
      some (pyStrip (joinSep " " (((List.range 2).reverse).map
        (fun j => descSingleItem (pyStrip
          ((["# one", "# two", "def test_y():"] : List String)[j]?.getD "")))))) ∧
    extract_description ["# one", "# two", "def test_y():"] 3 = some "two one" := by
  constructor
  · exact C1_amended ["# one", "# two", "def test_y():"] 3 (by omega) (by decide)
  · decide

/-- Claim C4: an exception inside any of the four field extractors is
caught there (each wrapped extractor is total), the failing field becomes
the empty string in the assembled record, and every other field of the
record — including the function name — still equals the value its own
extractor produces, so extraction of the rest of the function (and, via
`parse_test_cases` mapping `extract_function_info` over all boundaries,
of subsequent functions) proceeds unaffected. -/
theorem C4_field_isolation (lines : List String) (node : FunctionBoundary) :
    ((extract_description_core lines node.lineno = .error ()) →
        (extract_function_info lines node).testCaseDescription = "") ∧
    ((extract_pre_condition_core lines node.lineno node.end_lineno = .error ()) →
        (extract_function_info lines node).preCondition = "") ∧
    ((extract_test_steps_core lines node.lineno node.end_lineno = .error ()) →
        (extract_function_info lines node).testSteps = "") ∧
    ((extract_expected_output_core lines node.lineno node.end_lineno = .error ()) →
        (extract_function_info lines node).expectedOutput = "") ∧
    (extract_function_info lines node).testCaseName = node.name ∧
    (extract_function_info lines node).testCaseDescription =
      (extract_description lines node.lineno).getD "" ∧
    (extract_function_info lines node).preCondition =
      joinLinesField (extract_pre_condition lines node.lineno node.end_lineno) ∧
    (extract_function_info lines node).testSteps =
      joinLinesField (extract_test_steps lines node.lineno node.end_lineno) ∧
    (extract_function_info lines node).expectedOutput =
      joinLinesField (extract_expected_output lines node.lineno node.end_lineno) := by
  refine ⟨?_, ?_, ?_, ?_, rfl, rfl, rfl, rfl, rfl⟩ <;> intro h <;>
    simp [extract_function_info, extract_description, extract_pre_condition,
      extract_test_steps, extract_expected_output, catchForward, joinLinesField, h]

/-- Witness for C4: with an empty line buffer and a boundary at line 3,
all four cores raise (out-of-bounds read), every field of the record is
empty, and the record still carries the function name. -/
theorem C4_witness :
    extract_description_core [] 3 = .error () ∧
    extract_pre_condition_core [] 3 (some 4) = .error () ∧
    extract_test_steps_core [] 3 (some 4) = .error () ∧
    extract_expected_output_core [] 3 (some 4) = .error () ∧
    (extract_function_info [] ⟨"test_x", 3, some 4⟩).testCaseDescription = "" ∧
    (extract_function_info [] ⟨"test_x", 3, some 4⟩).preCondition = "" ∧
    (extract_function_info [] ⟨"test_x", 3, some 4⟩).testSteps = "" ∧
    (extract_function_info [] ⟨"test_x", 3, some 4⟩).expectedOutput = "" ∧
    (extract_function_info [] ⟨"test_x", 3, some 4⟩).testCaseName = "test_x" :=
  ⟨rfl, rfl, rfl, rfl,
    (C4_field_isolation [] ⟨"test_x", 3, some 4⟩).1 rfl,
    (C4_field_isolation [] ⟨"test_x", 3, some 4⟩).2.1 rfl,
    (C4_field_isolation [] ⟨"test_x", 3, some 4⟩).2.2.1 rfl,
    (C4_field_isolation [] ⟨"test_x", 3, some 4⟩).2.2.2.1 rfl,
    (C4_field_isolation [] ⟨"test_x", 3, some 4⟩).2.2.2.2.1⟩
